import Mathlib

/-!
Verification development for the KOVA landing-page section registry.

Shallow embedding of:
  - src/core/types/section.types.ts        (data model)
  - src/core/constants/feature-flags.ts    (FEATURE_FLAGS, isFeatureEnabled)
  - src/layouts/section-registry.ts        (SectionRegistryManager)
  - src/core/utils/section-helpers.ts      (validateSectionProps)

JavaScript runtime values that matter here are embedded explicitly:
a value read from a lookup that may be absent is an `Option` (`none`
models the JS value `undefined`), and JS truthiness is the function
`truthy`.  Maps are association lists in insertion order, matching the
iteration order of a JS `Map` and of `Object.entries`.
-/

namespace Kova

/-! ### Data model, from src/core/types/section.types.ts

`SectionConfig.component` is an opaque handle to the renderable unit;
it is modelled as a bare `Nat` tag since no registry operation inspects
it.  `order` is a JS number used with the comparator `a - b`; the values
in the repository are small integers, so it is embedded as `Int`. -/

structure SectionConfig where
  id : String
  name : String
  version : String
  enabled : Bool
  dependencies : List String
  props : List (String × String)
  order : Int
  component : Nat
deriving Repr, DecidableEq

structure SectionRegistryEntry where
  config : SectionConfig
  component : Nat
deriving Repr, DecidableEq

/-- The known section identifiers (the `SectionId` union type). -/
def allSectionIds : List String :=
  ["hero", "features", "pricing", "testimonials", "contact"]

/-! ### Feature flags, from src/core/constants/feature-flags.ts -/

/-- The static flag table `FEATURE_FLAGS`, keyed by `*_SECTION` names. -/
def FEATURE_FLAGS : List (String × Bool) :=
  [("HERO_SECTION", true),
   ("FEATURES_SECTION", false),
   ("PRICING_SECTION", false),
   ("TESTIMONIALS_SECTION", false),
   ("CONTACT_SECTION", false)]

/-- The ambient process environment: `process.env.NODE_ENV` and the
other environment variables (`none` = variable not set). -/
structure Env where
  nodeEnv : String
  vars : List (String × String)
deriving Repr, DecidableEq

/-- Keyed read over an association list: JS `Map.prototype.get`,
`process.env[k]` and `object[k]` all read the unique binding of the
key, `none` when absent. -/
def mapGet {α : Type} : List (String × α) → String → Option α
  | [], _ => none
  | (k', v) :: rest, k => if k' = k then some v else mapGet rest k

/-- `isFeatureEnabled(feature)`.  The source indexes `FEATURE_FLAGS`
with an arbitrary (cast) string key, so the table lookup can produce
the JS value `undefined`; the result type is therefore `Option Bool`,
with `none` standing for `undefined`. -/
def isFeatureEnabled (env : Env) (feature : String) : Option Bool :=
  if env.nodeEnv = "development" then
    match mapGet env.vars ("FEATURE_" ++ feature) with
    | some envOverride => some (envOverride = "true")
    | none => mapGet FEATURE_FLAGS feature
  else
    mapGet FEATURE_FLAGS feature

/-- JS truthiness of a `boolean | undefined` value. -/
def truthy : Option Bool → Bool
  | some b => b
  | none => false

/-! ### Registry state, from src/layouts/section-registry.ts

`sections` and `loadPromises` are the two `Map` fields of
`SectionRegistryManager`, as association lists in insertion order.
A pending promise is identified by a `Nat` drawn from `nextPid`.
`fetchLog` records one element per invocation of `dynamicImport`,
`warnings` the `console.warn` output, and `errors` the `console.error`
output, so that logging claims are statable. -/

structure RegistryState where
  sections : List (String × SectionRegistryEntry)
  loadPromises : List (String × Nat)
  nextPid : Nat
  fetchLog : List String
  warnings : List String
  errors : List String
deriving Repr, DecidableEq

/-- The empty registry, the state of the singleton at module load. -/
def initialState : RegistryState :=
  { sections := [], loadPromises := [], nextPid := 0,
    fetchLog := [], warnings := [], errors := [] }

/-- `Map.prototype.set`: overwrite in place if the key is present
(JS `Map` keeps the original insertion position), else append. -/
def mapSet {α : Type} : List (String × α) → String → α → List (String × α)
  | [], k, v => [(k, v)]
  | (k', v') :: rest, k, v =>
    if k' = k then (k, v) :: rest else (k', v') :: mapSet rest k v

/-- `Map.prototype.delete`: remove the binding for the key. -/
def mapDelete {α : Type} : List (String × α) → String → List (String × α)
  | [], _ => []
  | (k', v') :: rest, k =>
    if k' = k then mapDelete rest k else (k', v') :: mapDelete rest k

/-- `register(id, entry)`: `this.sections.set(id, entry)`. -/
def register (st : RegistryState) (id : String) (entry : SectionRegistryEntry) :
    RegistryState :=
  { st with sections := mapSet st.sections id entry }

/-- `getSection(id)`: `this.sections.get(id)`. -/
def getSection (st : RegistryState) (id : String) : Option SectionRegistryEntry :=
  mapGet st.sections id

/-- `hasSection(id)`: `this.sections.has(id)`. -/
def hasSection (st : RegistryState) (id : String) : Bool :=
  (mapGet st.sections id).isSome

/-- `getAllSections()`: `Array.from(this.sections.values())`,
in `Map` insertion order. -/
def getAllSections (st : RegistryState) : List SectionRegistryEntry :=
  st.sections.map (·.2)

/-- `isSectionEnabled(id)`: `this.hasSection(id) && isFeatureEnabled(id)`.
JS `&&` yields the right operand when the left is truthy, so the result
is again `boolean | undefined`. -/
def isSectionEnabled (env : Env) (st : RegistryState) (id : String) : Option Bool :=
  if hasSection st id then isFeatureEnabled env id else some false

/-- The comparison relation of the sort comparator
`(a, b) => a.config.order - b.config.order`. -/
def entryLe (a b : SectionRegistryEntry) : Prop :=
  a.config.order ≤ b.config.order

instance : DecidableRel entryLe := fun _ _ => Int.decLe _ _

instance : IsTotal SectionRegistryEntry entryLe :=
  ⟨fun a b => Int.le_total a.config.order b.config.order⟩

instance : IsTrans SectionRegistryEntry entryLe :=
  ⟨fun _ _ _ hab hbc => Int.le_trans hab hbc⟩

/-- `Array.prototype.sort` with the order comparator.  ECMAScript
requires `sort` to be stable, and every stable comparison sort computes
the same list, so insertion sort is a faithful model. -/
def jsSortByOrder (l : List SectionRegistryEntry) : List SectionRegistryEntry :=
  List.insertionSort entryLe l

/-- `getEnabledSections()`: filter `getAllSections()` by the truthiness
of `isFeatureEnabled(entry.config.id)`, then sort by `order`. -/
def getEnabledSections (env : Env) (st : RegistryState) : List SectionRegistryEntry :=
  jsSortByOrder ((getAllSections st).filter
    (fun entry => truthy (isFeatureEnabled env entry.config.id)))

/-- `getSectionsInOrder()`: sort `getEnabledSections()` by `order` again. -/
def getSectionsInOrder (env : Env) (st : RegistryState) : List SectionRegistryEntry :=
  jsSortByOrder (getEnabledSections env st)

/-! ### Dynamic loading, src/layouts/section-registry.ts lines 72-104

`loadSection` is an async method.  JS runs an async function body
synchronously from entry up to its first `await`, atomically with
respect to other tasks; the body here has exactly one `await`.  It is
therefore embedded as two atomic steps:

  - `loadSectionStart` is the synchronous prologue: the allow-list
    check, the already-registered check, the join of an in-flight
    promise, or else the call of `dynamicImport` (which starts the
    fetch immediately, recorded in `fetchLog`) and the publication of
    the new promise in `loadPromises`.
  - `loadSectionFinish` is the continuation of the owning call after
    its promise settles: on fulfilment it registers the entry and
    resolves to it, on rejection it logs and resolves to `none`; in
    both cases the `finally` block deletes the in-flight marker before
    the method returns.

A call that joined an existing promise resolves to that promise's
settled value directly (the source returns the promise itself). -/

/-- `AVAILABLE_SECTIONS`: the allow-list of loadable identifiers. -/
def AVAILABLE_SECTIONS : List String := ["hero"]

/-- What a `loadSection` call is doing after its synchronous prologue. -/
inductive LoadPhase where
  | done (result : Option SectionRegistryEntry)
  | awaitOwn (pid : Nat)
  | awaitJoin (pid : Nat)
deriving Repr, DecidableEq


/-- Synchronous prologue of `loadSection(id)` (lines 72-93). -/
def loadSectionStart (st : RegistryState) (id : String) : RegistryState × LoadPhase :=
  if id ∈ AVAILABLE_SECTIONS then
    match getSection st id with
    | some existing => (st, .done (some existing))
    | none =>
      match mapGet st.loadPromises id with
      | some loadPromise => (st, .awaitJoin loadPromise)
      | none =>
        let pid := st.nextPid
        ({ st with
            fetchLog := st.fetchLog ++ [id],
            loadPromises := mapSet st.loadPromises id pid,
            nextPid := pid + 1 },
         .awaitOwn pid)
  else
    ({ st with
        warnings := st.warnings ++ ["Section " ++ id ++ " is not implemented yet"] },
     .done none)

/-- Continuation of the owning `loadSection(id)` call once its promise
settles (lines 95-104: try / catch / finally). -/
def loadSectionFinish (st : RegistryState) (id : String) (outcome : Option SectionRegistryEntry) :
    RegistryState × Option SectionRegistryEntry :=
  match outcome with
  | some entry =>
    let st1 := register st id entry
    ({ st1 with loadPromises := mapDelete st1.loadPromises id }, some entry)
  | none =>
    ({ st with
        errors := st.errors ++ ["Failed to load section: " ++ id],
        loadPromises := mapDelete st.loadPromises id }, none)

/-- Number of in-flight load operations recorded for `id`. -/
def inflightCount (st : RegistryState) (id : String) : Nat :=
  (st.loadPromises.filter (fun p => p.1 = id)).length

/-- A `loadSection` call whose prologue found an in-flight promise
returns that promise itself (line 89-91), so it resolves to the
fulfilment value of that promise. -/
def joinResolve (value : Option SectionRegistryEntry) : Option SectionRegistryEntry :=
  value

/-! ### Dependency validation, src/layouts/section-registry.ts 127-143 -/

/-- The error string pushed for one missing dependency. -/
def depErrorMsg (sectionId dep : String) : String :=
  "Section \"" ++ sectionId ++ "\" requires missing dependency: \"" ++ dep ++ "\""

/-- `validateDependencies()`: two nested `for` loops pushing one error
per missing dependency of an enabled section. -/
def validateDependencies (env : Env) (st : RegistryState) : Bool × List String :=
  let errors := (getEnabledSections env st).foldl
    (fun acc entry =>
      entry.config.dependencies.foldl
        (fun acc2 dep =>
          if hasSection st dep then acc2
          else acc2 ++ [depErrorMsg entry.config.id dep])
        acc)
    []
  (errors.isEmpty, errors)

/-! ### Load status, src/layouts/section-registry.ts 148-164 -/

/-- The per-identifier status union
`loaded | loading | not-loaded | error`. -/
inductive LoadState where
  | loaded
  | loading
  | notLoaded
  | error
deriving Repr, DecidableEq

/-- `getLoadStatus()`: builds the record by assignment over all the
known identifiers in order. -/
def getLoadStatus (st : RegistryState) : List (String × LoadState) :=
  allSectionIds.foldl
    (fun status id =>
      mapSet status id
        (if hasSection st id then .loaded
         else if (mapGet st.loadPromises id).isSome then .loading
         else .notLoaded))
    []

/-! ### Prop validation, src/core/utils/section-helpers.ts 31-65

JS runtime values are embedded as `JSValue`; `typeof` and
`Array.isArray` are the functions below. -/

inductive JSValue where
  | str (s : String)
  | num (n : Int)
  | boolean (b : Bool)
  | arr (elems : List JSValue)
  | obj
  | jsNull
  | undef

/-- JS `typeof`. -/
def typeofStr : JSValue → String
  | .str _ => "string"
  | .num _ => "number"
  | .boolean _ => "boolean"
  | .arr _ => "object"
  | .obj => "object"
  | .jsNull => "object"
  | .undef => "undefined"

/-- `Array.isArray`. -/
def isArray : JSValue → Bool
  | .arr _ => true
  | _ => false

/-- `pattern` occurs at the head of the character list. -/
def startsWithChars : List Char → List Char → Bool
  | [], _ => true
  | _ :: _, [] => false
  | c :: cs, d :: ds => c = d && startsWithChars cs ds

/-- `pattern` occurs somewhere in the character list. -/
def containsChars (pattern : List Char) : List Char → Bool
  | [] => startsWithChars pattern []
  | d :: ds => startsWithChars pattern (d :: ds) || containsChars pattern ds

/-- `s.includes(sub)`: substring containment. -/
def strIncludes (s sub : String) : Bool :=
  containsChars sub.data s.data

/-- `s.endsWith(suf)`. -/
def strEndsWith (s suf : String) : Bool :=
  startsWithChars suf.data.reverse s.data.reverse

/-- `propName in props` for a plain object. -/
def hasKey (props : List (String × JSValue)) (k : String) : Bool :=
  (mapGet props k).isSome

/-- `validateSectionProps(props, config)`.  First loop: every schema
key absent from `props` pushes a missing-prop error.  Second loop: for
every present prop whose name is in the schema, an array-tagged
expectation with a non-array value errs; otherwise a type mismatch errs
unless the actual type is `undefined` (the inner guard of the source is
kept verbatim although its condition cannot fire in that branch). -/
def validateSectionProps (props : List (String × JSValue)) (config : SectionConfig) :
    Bool × List String :=
  let errs1 := config.props.foldl
    (fun acc pr =>
      if hasKey props pr.1 then acc
      else acc ++ ["Missing required prop: " ++ pr.1 ++ " (" ++ pr.2 ++ ")"])
    []
  let errs2 := props.foldl
    (fun acc pv =>
      match mapGet config.props pv.1 with
      | none => acc
      | some expectedType =>
        let actualType := if isArray pv.2 then "array" else typeofStr pv.2
        if strIncludes expectedType "[]" && !isArray pv.2 then
          acc ++ ["Prop " ++ pv.1 ++ " should be an array, got " ++ actualType]
        else if !strIncludes expectedType "[]" && expectedType ≠ actualType
            && actualType ≠ "undefined" then
          if !(strEndsWith expectedType "?" && actualType = "undefined") then
            acc ++ ["Prop " ++ pv.1 ++ " should be " ++ expectedType ++ ", got "
                      ++ actualType]
          else acc
        else acc)
    errs1
  (errs2.isEmpty, errs2)

/-- The hero section configuration, src/sections/hero/section.config.ts
(the `component` field is `null as any` in the source, tagged 0 here). -/
def heroSectionConfig : SectionConfig :=
  { id := "hero",
    name := "Hero Section",
    version := "1.0.0",
    enabled := true,
    dependencies := ["ethereal-depth"],
    props := [("title", "string"), ("subtitle", "string"),
              ("description", "string"), ("features", "Feature[]"),
              ("dynamicWords", "string[]")],
    order := 1,
    component := 0 }

/-- The registry entry produced by `dynamicImport("hero")`. -/
def heroEntry : SectionRegistryEntry :=
  { config := heroSectionConfig, component := 1 }

/-! ### Derived state and witness inputs -/

/-- The state after a fresh load of `id` has started: the fetch has
been issued and the in-flight promise published. -/
def afterStartFresh (st : RegistryState) (id : String) : RegistryState :=
  { st with
      fetchLog := st.fetchLog ++ [id],
      loadPromises := mapSet st.loadPromises id st.nextPid,
      nextPid := st.nextPid + 1 }

/-- The entries of a list whose `order` field equals `k`, in order. -/
def ordFilter (k : Int) (l : List SectionRegistryEntry) : List SectionRegistryEntry :=
  l.filter (fun e => e.config.order = k)

/-- A second registered entry, used as concrete witness input (an
equal-`order` companion to the hero entry). -/
def featuresEntry : SectionRegistryEntry :=
  { config :=
      { id := "features", name := "Features Section", version := "1.0.0",
        enabled := false, dependencies := [], props := [], order := 1,
        component := 0 },
    component := 2 }

/-- A development environment enabling both witness sections through
the per-flag override variables. -/
def wEnv : Env :=
  ⟨"development", [("FEATURE_hero", "true"), ("FEATURE_features", "true")]⟩

/-- A registry with two entries of equal order, "features" registered
first. -/
def wState : RegistryState :=
  register (register initialState "features" featuresEntry) "hero" heroEntry

/-- The production environment (no development overrides). -/
def prodEnv : Env := ⟨"production", []⟩

/-- The registry after the hero section has loaded successfully. -/
def heroState : RegistryState := register initialState "hero" heroEntry

/-- A development environment with one override variable set. -/
def devEnv : Env := ⟨"development", [("FEATURE_X", "true")]⟩

/-- The per-identifier status rule of the claim: `loaded` when
registered, else `loading` when in flight, else `not-loaded`. -/
def loadStateOf (st : RegistryState) (id : String) : LoadState :=
  if hasSection st id then .loaded
  else if (mapGet st.loadPromises id).isSome then .loading
  else .notLoaded

/-- A one-key schema whose only key is marked optional with `?`. -/
def demoConfig : SectionConfig :=
  { id := "demo", name := "Demo", version := "1.0.0", enabled := true,
    dependencies := [], props := [("subtitle", "string?")], order := 0,
    component := 0 }

/-! ### Association-list lemmas -/

lemma mapGet_mapSet {α : Type} (m : List (String × α)) (k k' : String) (v : α) :
    mapGet (mapSet m k v) k' = if k = k' then some v else mapGet m k' := by
  induction m with
  | nil =>
    simp only [mapSet, mapGet]
  | cons p rest ih =>
    obtain ⟨a, b⟩ := p
    simp only [mapSet, mapGet]
    split_ifs with h1 h2 <;> simp_all [mapGet]

lemma mapSet_append_of_mapGet_none {α : Type} (m : List (String × α)) (k : String) (v : α)
    (h : mapGet m k = none) : mapSet m k v = m ++ [(k, v)] := by
  induction m with
  | nil => simp [mapSet]
  | cons p rest ih =>
    obtain ⟨a, b⟩ := p
    simp only [mapGet] at h
    split_ifs at h with h1
    simp [mapSet, h1, ih h]

lemma filter_key_nil_of_mapGet_none {α : Type} (m : List (String × α)) (k : String)
    (h : mapGet m k = none) : m.filter (fun p => p.1 = k) = [] := by
  induction m with
  | nil => simp
  | cons p rest ih =>
    obtain ⟨a, b⟩ := p
    simp only [mapGet] at h
    split_ifs at h with h1
    simp [List.filter, h1, ih h]

lemma filter_key_mapDelete {α : Type} (m : List (String × α)) (k : String) :
    (mapDelete m k).filter (fun p => p.1 = k) = [] := by
  induction m with
  | nil => simp [mapDelete]
  | cons p rest ih =>
    obtain ⟨a, b⟩ := p
    by_cases h1 : a = k
    · simp [mapDelete, h1, ih]
    · simp [mapDelete, h1, List.filter, ih]

lemma mapGet_mapDelete_self {α : Type} (m : List (String × α)) (k : String) :
    mapGet (mapDelete m k) k = none := by
  induction m with
  | nil => simp [mapDelete, mapGet]
  | cons p rest ih =>
    obtain ⟨a, b⟩ := p
    by_cases h1 : a = k
    · simp [mapDelete, h1, ih]
    · simp [mapDelete, mapGet, h1, ih]

/-! ### Unfolding lemmas for the loadSection steps -/


lemma loadSectionStart_fresh (st : RegistryState) (id : String)
    (hav : id ∈ AVAILABLE_SECTIONS) (hreg : mapGet st.sections id = none)
    (hinf : mapGet st.loadPromises id = none) :
    loadSectionStart st id = (afterStartFresh st id, LoadPhase.awaitOwn st.nextPid) := by
  unfold loadSectionStart getSection afterStartFresh
  simp [hav, hreg, hinf]

lemma loadSectionStart_join (st : RegistryState) (id : String) (pid : Nat)
    (hav : id ∈ AVAILABLE_SECTIONS) (hreg : mapGet st.sections id = none)
    (hinf : mapGet st.loadPromises id = some pid) :
    loadSectionStart st id = (st, LoadPhase.awaitJoin pid) := by
  unfold loadSectionStart getSection
  simp [hav, hreg, hinf]

lemma loadSectionStart_blocked (st : RegistryState) (id : String)
    (h : id ∉ AVAILABLE_SECTIONS) :
    loadSectionStart st id =
      ({ st with
          warnings := st.warnings ++ ["Section " ++ id ++ " is not implemented yet"] },
       LoadPhase.done none) := by
  unfold loadSectionStart
  simp [h]

lemma loadSectionFinish_ok (st : RegistryState) (id : String) (e : SectionRegistryEntry) :
    loadSectionFinish st id (some e) =
      ({ st with
          sections := mapSet st.sections id e,
          loadPromises := mapDelete st.loadPromises id }, some e) := rfl

lemma loadSectionFinish_fail (st : RegistryState) (id : String) :
    loadSectionFinish st id none =
      ({ st with
          errors := st.errors ++ ["Failed to load section: " ++ id],
          loadPromises := mapDelete st.loadPromises id }, none) := rfl

/-! ### C1: coalescing of concurrent loads

JS executes an async function body atomically up to its first `await`.
The scenario of the claim is a call A to `loadSection(id)` that starts
a fresh load, then a call B to `loadSection(id)` issued while the load
of A is still in flight, then the settlement of the underlying promise.
Under run-to-completion scheduling this interleaving is exactly:
prologue of A, prologue of B, continuation of A. -/

/-- C1: when a second `loadSection(id)` is issued while the first load
is in flight, the first call starts exactly one fetch and the second
joins the same promise (same promise id, no state change and no second
fetch); when that promise fulfils with entry `e`, the owning call
resolves to `some e`, the joined promise resolves to the same value,
the entry is registered under `id`, the fetch log has grown by exactly
the one fetch, and every state of the trace records at most one
in-flight load for `id` (counts 0, 1, 1, 0). -/
theorem loadSection_coalesces (st0 : RegistryState) (id : String) (e : SectionRegistryEntry)
    (hav : id ∈ AVAILABLE_SECTIONS)
    (hreg : getSection st0 id = none)
    (hinf : mapGet st0.loadPromises id = none) :
    (loadSectionStart st0 id).2 = LoadPhase.awaitOwn st0.nextPid
    ∧ (loadSectionStart (loadSectionStart st0 id).1 id).2 = LoadPhase.awaitJoin st0.nextPid
    ∧ (loadSectionStart (loadSectionStart st0 id).1 id).1 = (loadSectionStart st0 id).1
    ∧ (loadSectionFinish (loadSectionStart st0 id).1 id (some e)).2 = some e
    ∧ joinResolve (some e) = (loadSectionFinish (loadSectionStart st0 id).1 id (some e)).2
    ∧ getSection (loadSectionFinish (loadSectionStart st0 id).1 id (some e)).1 id = some e
    ∧ (loadSectionFinish (loadSectionStart st0 id).1 id (some e)).1.fetchLog
        = st0.fetchLog ++ [id]
    ∧ inflightCount st0 id = 0
    ∧ inflightCount (loadSectionStart st0 id).1 id = 1
    ∧ inflightCount (loadSectionFinish (loadSectionStart st0 id).1 id (some e)).1 id = 0 := by
  have hreg' : mapGet st0.sections id = none := hreg
  have h1 := loadSectionStart_fresh st0 id hav hreg' hinf
  have hs1sec : (afterStartFresh st0 id).sections = st0.sections := rfl
  have hs1inf : mapGet (afterStartFresh st0 id).loadPromises id = some st0.nextPid := by
    unfold afterStartFresh
    simp [mapGet_mapSet]
  have h2 := loadSectionStart_join (afterStartFresh st0 id) id st0.nextPid hav
    (hs1sec ▸ hreg') hs1inf
  have h3 := loadSectionFinish_ok (afterStartFresh st0 id) id e
  rw [h1]
  dsimp only
  rw [h2, h3]
  dsimp only
  refine ⟨rfl, rfl, rfl, rfl, rfl, ?_, ?_, ?_, ?_, ?_⟩
  · simp [getSection, mapGet_mapSet]
  · rfl
  · simp [inflightCount, filter_key_nil_of_mapGet_none _ _ hinf]
  · unfold inflightCount afterStartFresh
    dsimp only
    rw [mapSet_append_of_mapGet_none _ _ _ hinf]
    simp [List.filter_append, filter_key_nil_of_mapGet_none _ _ hinf]
  · unfold inflightCount
    dsimp only
    rw [filter_key_mapDelete]
    rfl

/-- Witness for C1 at the concrete input: the empty registry, the
identifier "hero" and the hero entry. -/
theorem loadSection_coalesces_witness :
    ("hero" ∈ AVAILABLE_SECTIONS
      ∧ getSection initialState "hero" = none
      ∧ mapGet initialState.loadPromises "hero" = none)
    ∧ ((loadSectionStart initialState "hero").2 = LoadPhase.awaitOwn initialState.nextPid
    ∧ (loadSectionStart (loadSectionStart initialState "hero").1 "hero").2
        = LoadPhase.awaitJoin initialState.nextPid
    ∧ (loadSectionStart (loadSectionStart initialState "hero").1 "hero").1
        = (loadSectionStart initialState "hero").1
    ∧ (loadSectionFinish (loadSectionStart initialState "hero").1 "hero" (some heroEntry)).2
        = some heroEntry
    ∧ joinResolve (some heroEntry)
        = (loadSectionFinish (loadSectionStart initialState "hero").1 "hero" (some heroEntry)).2
    ∧ getSection
        (loadSectionFinish (loadSectionStart initialState "hero").1 "hero" (some heroEntry)).1
        "hero" = some heroEntry
    ∧ (loadSectionFinish (loadSectionStart initialState "hero").1 "hero" (some heroEntry)).1.fetchLog
        = initialState.fetchLog ++ ["hero"]
    ∧ inflightCount initialState "hero" = 0
    ∧ inflightCount (loadSectionStart initialState "hero").1 "hero" = 1
    ∧ inflightCount
        (loadSectionFinish (loadSectionStart initialState "hero").1 "hero" (some heroEntry)).1
        "hero" = 0) :=
  ⟨⟨by decide, by decide, by decide⟩,
   loadSection_coalesces initialState "hero" heroEntry (by decide) (by decide) (by decide)⟩

/-! ### C5: allow-list gating of loads -/

/-- C5: with the allow-list `{"hero"}`, a fresh `loadSection("hero")`
whose fetch fulfils with `e` resolves to the populated entry `e` and
registers it, while `loadSection(id)` for any `id` outside the
allow-list logs the warning, resolves to `none` and leaves the
registry entry map unchanged. -/
theorem loadSection_allowList (st0 st : RegistryState) (e : SectionRegistryEntry) (id : String)
    (hreg : getSection st0 "hero" = none)
    (hinf : mapGet st0.loadPromises "hero" = none)
    (hid : id ∉ AVAILABLE_SECTIONS) :
    ((loadSectionStart st0 "hero").2 = LoadPhase.awaitOwn st0.nextPid
      ∧ (loadSectionFinish (loadSectionStart st0 "hero").1 "hero" (some e)).2 = some e
      ∧ getSection (loadSectionFinish (loadSectionStart st0 "hero").1 "hero" (some e)).1 "hero"
          = some e)
    ∧ ((loadSectionStart st id).2 = LoadPhase.done none
      ∧ (loadSectionStart st id).1.sections = st.sections
      ∧ (loadSectionStart st id).1.warnings
          = st.warnings ++ ["Section " ++ id ++ " is not implemented yet"]) := by
  have hreg2 : mapGet st0.sections "hero" = none := hreg
  have h1 := loadSectionStart_fresh st0 "hero" (by decide) hreg2 hinf
  have h3 := loadSectionFinish_ok (afterStartFresh st0 "hero") "hero" e
  have h4 := loadSectionStart_blocked st id hid
  refine ⟨⟨?_, ?_, ?_⟩, ?_, ?_, ?_⟩
  · rw [h1]
  · rw [h1]
    dsimp only
    rw [h3]
  · rw [h1]
    dsimp only
    rw [h3]
    dsimp only
    simp [getSection, mapGet_mapSet]
  · rw [h4]
  · rw [h4]
  · rw [h4]

/-- Witness for C5 at the concrete inputs: the empty registry, the hero
entry, and the identifier "features" outside the allow-list. -/
theorem loadSection_allowList_witness :
    (getSection initialState "hero" = none
      ∧ mapGet initialState.loadPromises "hero" = none
      ∧ "features" ∉ AVAILABLE_SECTIONS)
    ∧ (((loadSectionStart initialState "hero").2 = LoadPhase.awaitOwn initialState.nextPid
      ∧ (loadSectionFinish (loadSectionStart initialState "hero").1 "hero" (some heroEntry)).2
          = some heroEntry
      ∧ getSection
          (loadSectionFinish (loadSectionStart initialState "hero").1 "hero" (some heroEntry)).1
          "hero" = some heroEntry)
    ∧ ((loadSectionStart initialState "features").2 = LoadPhase.done none
      ∧ (loadSectionStart initialState "features").1.sections = initialState.sections
      ∧ (loadSectionStart initialState "features").1.warnings
          = initialState.warnings ++ ["Section " ++ "features" ++ " is not implemented yet"])) :=
  ⟨⟨by decide, by decide, by decide⟩,
   loadSection_allowList initialState initialState heroEntry "features"
     (by decide) (by decide) (by decide)⟩

/-! ### C6: failure atomicity and retryability -/

/-- C6: for a fresh load of an available `id`, if the underlying fetch
rejects then the call resolves to `none` and the section map is
unchanged; for either outcome the in-flight marker for `id` is removed
before the call returns; and a subsequent `loadSection(id)` after a
failure starts a fresh load (a new fetch) instead of joining a dead
one. -/
theorem loadSection_failure_atomic (st0 : RegistryState) (id : String)
    (hav : id ∈ AVAILABLE_SECTIONS)
    (hreg : getSection st0 id = none)
    (hinf : mapGet st0.loadPromises id = none) :
    (loadSectionFinish (loadSectionStart st0 id).1 id none).2 = none
    ∧ (loadSectionFinish (loadSectionStart st0 id).1 id none).1.sections = st0.sections
    ∧ (∀ outcome : Option SectionRegistryEntry,
        mapGet (loadSectionFinish (loadSectionStart st0 id).1 id outcome).1.loadPromises id
          = none)
    ∧ (loadSectionStart (loadSectionFinish (loadSectionStart st0 id).1 id none).1 id).2
        = LoadPhase.awaitOwn (loadSectionFinish (loadSectionStart st0 id).1 id none).1.nextPid
    ∧ (loadSectionStart (loadSectionFinish (loadSectionStart st0 id).1 id none).1 id).1.fetchLog
        = (loadSectionFinish (loadSectionStart st0 id).1 id none).1.fetchLog ++ [id] := by
  have hreg2 : mapGet st0.sections id = none := hreg
  have h1 := loadSectionStart_fresh st0 id hav hreg2 hinf
  have h2 := loadSectionFinish_fail (afterStartFresh st0 id) id
  have hfailsec :
      (loadSectionFinish (afterStartFresh st0 id) id none).1.sections = st0.sections := by
    rw [h2]
    rfl
  have hfailinf :
      mapGet (loadSectionFinish (afterStartFresh st0 id) id none).1.loadPromises id = none := by
    rw [h2]
    exact mapGet_mapDelete_self _ _
  have h5 := loadSectionStart_fresh (loadSectionFinish (afterStartFresh st0 id) id none).1 id
    hav (hfailsec.trans rfl ▸ hreg2) hfailinf
  rw [h1]
  dsimp only
  refine ⟨by rw [h2], hfailsec, ?_, ?_, ?_⟩
  · intro outcome
    cases outcome with
    | some e2 =>
      rw [loadSectionFinish_ok]
      exact mapGet_mapDelete_self _ _
    | none => exact hfailinf
  · rw [h5]
  · rw [h5]
    rfl

/-- Witness for C6 at the concrete input: the empty registry and the
identifier "hero". -/
theorem loadSection_failure_atomic_witness :
    ("hero" ∈ AVAILABLE_SECTIONS
      ∧ getSection initialState "hero" = none
      ∧ mapGet initialState.loadPromises "hero" = none)
    ∧ ((loadSectionFinish (loadSectionStart initialState "hero").1 "hero" none).2 = none
    ∧ (loadSectionFinish (loadSectionStart initialState "hero").1 "hero" none).1.sections
        = initialState.sections
    ∧ (∀ outcome : Option SectionRegistryEntry,
        mapGet (loadSectionFinish (loadSectionStart initialState "hero").1 "hero"
          outcome).1.loadPromises "hero" = none)
    ∧ (loadSectionStart
          (loadSectionFinish (loadSectionStart initialState "hero").1 "hero" none).1 "hero").2
        = LoadPhase.awaitOwn
            (loadSectionFinish (loadSectionStart initialState "hero").1 "hero" none).1.nextPid
    ∧ (loadSectionStart
          (loadSectionFinish (loadSectionStart initialState "hero").1 "hero" none).1
          "hero").1.fetchLog
        = (loadSectionFinish (loadSectionStart initialState "hero").1 "hero" none).1.fetchLog
            ++ ["hero"]) :=
  ⟨⟨by decide, by decide, by decide⟩,
   loadSection_failure_atomic initialState "hero" (by decide) (by decide) (by decide)⟩

/-! ### Sorting lemmas for C2 / C9 / C10 -/


lemma ordFilter_orderedInsert (k : Int) (x : SectionRegistryEntry)
    (l : List SectionRegistryEntry) :
    ordFilter k (List.orderedInsert entryLe x l)
      = if x.config.order = k then x :: ordFilter k l else ordFilter k l := by
  induction l with
  | nil =>
    simp [ordFilter, List.orderedInsert, List.filter]
    split_ifs <;> simp_all
  | cons y ys ih =>
    simp only [List.orderedInsert]
    by_cases hle : entryLe x y
    · rw [if_pos hle]
      simp only [ordFilter, List.filter]
      split_ifs <;> simp_all [ordFilter]
    · rw [if_neg hle]
      have hlt : y.config.order < x.config.order := by
        have := hle
        unfold entryLe at this
        omega
      simp only [ordFilter, List.filter] at ih ⊢
      by_cases hxk : x.config.order = k
      · have hyk : ¬ y.config.order = k := by omega
        simp [hxk, hyk] at ih ⊢
        simpa [hxk] using ih
      · by_cases hyk : y.config.order = k <;> simp [hxk, hyk] at ih ⊢ <;> simpa [hxk] using ih

lemma ordFilter_insertionSort (k : Int) (l : List SectionRegistryEntry) :
    ordFilter k (List.insertionSort entryLe l) = ordFilter k l := by
  induction l with
  | nil => rfl
  | cons x xs ih =>
    simp only [List.insertionSort]
    rw [ordFilter_orderedInsert]
    simp only [ordFilter, List.filter] at ih ⊢
    by_cases hxk : x.config.order = k
    · simp [hxk, ih]
    · simp [hxk, ih]

lemma mapGet_isSome_of_mem {α : Type} (m : List (String × α)) (k : String) (v : α)
    (h : (k, v) ∈ m) : (mapGet m k).isSome := by
  induction m with
  | nil => cases h
  | cons p rest ih =>
    obtain ⟨a, b⟩ := p
    rcases List.mem_cons.mp h with heq | hmem
    · obtain ⟨rfl, rfl⟩ := Prod.mk.injEq .. ▸ heq
      simp_all [mapGet]
    · by_cases hak : a = k <;> simp [mapGet, hak, ih hmem]

/-! ### C2: the enabled section list -/

/-- C2: in any registry state whose map keys agree with the descriptor
ids of the stored entries (every state the repository constructs is of
this form, since `register` is only called with `entry.config.id` as
the key), `getEnabledSections()` contains only entries whose identifier
is enabled (`isSectionEnabled` truthy, hence never an entry whose
identifier is disabled), is sorted non-decreasing by `order`, and for
every order value `k` its equal-`order` entries appear exactly as in
the registration-ordered filtered list (stability). -/
theorem getEnabledSections_spec (env : Env) (st : RegistryState)
    (hwf : ∀ p ∈ st.sections, (p.2).config.id = p.1) :
    (∀ e ∈ getEnabledSections env st, truthy (isSectionEnabled env st e.config.id) = true)
    ∧ List.Sorted entryLe (getEnabledSections env st)
    ∧ ∀ k : Int,
        ordFilter k (getEnabledSections env st)
          = ordFilter k ((getAllSections st).filter
              (fun entry => truthy (isFeatureEnabled env entry.config.id))) := by
  refine ⟨?_, ?_, ?_⟩
  · intro e he
    have he2 : e ∈ (getAllSections st).filter
        (fun entry => truthy (isFeatureEnabled env entry.config.id)) := by
      unfold getEnabledSections jsSortByOrder at he
      exact (List.mem_insertionSort entryLe).mp he
    have he3 := List.mem_filter.mp he2
    obtain ⟨p, hp, hpe⟩ := List.mem_map.mp he3.1
    have hid : e.config.id = p.1 := by
      rw [← hpe]
      exact hwf p hp
    have hhas : hasSection st e.config.id = true := by
      rw [hid]
      unfold hasSection
      have hp2 : (p.1, p.2) ∈ st.sections := by simpa using hp
      simpa using mapGet_isSome_of_mem st.sections p.1 p.2 hp2
    unfold isSectionEnabled
    rw [if_pos hhas]
    exact he3.2
  · unfold getEnabledSections jsSortByOrder
    exact List.sorted_insertionSort entryLe _
  · intro k
    unfold getEnabledSections jsSortByOrder
    exact ordFilter_insertionSort k _


/-- Witness for C2 at the concrete input `wEnv`, `wState`. -/
theorem getEnabledSections_spec_witness :
    (∀ p ∈ wState.sections, (p.2).config.id = p.1)
    ∧ ((∀ e ∈ getEnabledSections wEnv wState,
          truthy (isSectionEnabled wEnv wState e.config.id) = true)
    ∧ List.Sorted entryLe (getEnabledSections wEnv wState)
    ∧ ∀ k : Int,
        ordFilter k (getEnabledSections wEnv wState)
          = ordFilter k ((getAllSections wState).filter
              (fun entry => truthy (isFeatureEnabled wEnv entry.config.id)))) :=
  ⟨by decide, getEnabledSections_spec wEnv wState (by decide)⟩

/-! ### C10: getSectionsInOrder equals getEnabledSections -/

/-- C10: for every registry state and environment, the extra stable
sort in `getSectionsInOrder()` is the identity on the already sorted
output of `getEnabledSections()`, so the two operations agree. -/
theorem getSectionsInOrder_eq_getEnabledSections (env : Env) (st : RegistryState) :
    getSectionsInOrder env st = getEnabledSections env st := by
  have h : List.Sorted entryLe (getEnabledSections env st) := by
    unfold getEnabledSections jsSortByOrder
    exact List.sorted_insertionSort entryLe _
  unfold getSectionsInOrder jsSortByOrder
  exact h.insertionSort_eq

/-! ### C9: the flag-key mismatch at the registry / flag seam -/

lemma flags_mapGet_sectionId_none (id : String) (h : id ∈ allSectionIds) :
    mapGet FEATURE_FLAGS id = none := by
  simp only [allSectionIds, List.mem_cons, List.not_mem_nil, or_false] at h
  rcases h with rfl | rfl | rfl | rfl | rfl <;> decide


/-- C9: outside development mode, for every section identifier and any
registry whose entries carry section identifiers, the static table has
`HERO_SECTION = true` yet `isFeatureEnabled` yields `undefined` for the
raw section id, so `isSectionEnabled` is never `true` (it is
`undefined` for a registered id) and `getEnabledSections()` is empty:
the registry keys the flag service by the raw id while the table is
keyed by `*_SECTION` names. -/
theorem flagKey_mismatch (env : Env) (st : RegistryState) (id : String)
    (hdev : env.nodeEnv ≠ "development")
    (hid : id ∈ allSectionIds)
    (hwf : ∀ p ∈ st.sections, (p.2).config.id ∈ allSectionIds) :
    mapGet FEATURE_FLAGS "HERO_SECTION" = some true
    ∧ isFeatureEnabled env id = none
    ∧ isSectionEnabled env st id ≠ some true
    ∧ (hasSection st id = true → isSectionEnabled env st id = none)
    ∧ getEnabledSections env st = [] := by
  have hflag : ∀ j ∈ allSectionIds, isFeatureEnabled env j = none := by
    intro j hj
    unfold isFeatureEnabled
    rw [if_neg hdev]
    exact flags_mapGet_sectionId_none j hj
  refine ⟨by decide, hflag id hid, ?_, ?_, ?_⟩
  · unfold isSectionEnabled
    split_ifs with hh
    · rw [hflag id hid]
      simp
    · simp
  · intro hh
    unfold isSectionEnabled
    rw [if_pos hh]
    exact hflag id hid
  · have hfil : (getAllSections st).filter
        (fun entry => truthy (isFeatureEnabled env entry.config.id)) = [] := by
      rw [List.filter_eq_nil_iff]
      intro e he
      obtain ⟨p, hp, hpe⟩ := List.mem_map.mp he
      have : e.config.id ∈ allSectionIds := by
        rw [← hpe]
        exact hwf p hp
      rw [hflag e.config.id this]
      simp [truthy]
    unfold getEnabledSections jsSortByOrder
    rw [hfil]
    rfl

/-- Witness for C9 at the concrete input: the production environment,
the registry holding the hero entry, and the identifier "hero". -/
theorem flagKey_mismatch_witness :
    (prodEnv.nodeEnv ≠ "development"
      ∧ "hero" ∈ allSectionIds
      ∧ ∀ p ∈ heroState.sections, (p.2).config.id ∈ allSectionIds)
    ∧ (mapGet FEATURE_FLAGS "HERO_SECTION" = some true
    ∧ isFeatureEnabled prodEnv "hero" = none
    ∧ isSectionEnabled prodEnv heroState "hero" ≠ some true
    ∧ (hasSection heroState "hero" = true → isSectionEnabled prodEnv heroState "hero" = none)
    ∧ getEnabledSections prodEnv heroState = []) :=
  ⟨⟨by decide, by decide, by decide⟩,
   flagKey_mismatch prodEnv heroState "hero" (by decide) (by decide) (by decide)⟩

/-! ### C3: isFeatureEnabled -/

/-- C3 counterexample: for an identifier absent from the static table
("hero" is not a `*_SECTION` key), outside development mode the result
is the JS value `undefined` (`none`), which is not the boolean `false`
(and not `true`): the claim that the function then returns the boolean
`false` fails. -/
theorem isFeatureEnabled_unknown_not_false :
    isFeatureEnabled prodEnv "hero" = none
    ∧ isFeatureEnabled prodEnv "hero" ≠ some false
    ∧ isFeatureEnabled prodEnv "hero" ≠ some true :=
  ⟨by decide, by decide, by decide⟩

/-- C3 (amended): `isFeatureEnabled` returns a boolean or `undefined`.
In development mode with the per-flag environment variable set it
returns `true` exactly when the value equals the literal string
`"true"` (the override takes precedence over the static table);
outside development mode the override is ignored and the static-table
value is returned; for an identifier absent from the static table
(with no applicable override) the result is the JS value `undefined` —
falsy, but not the boolean `false`. -/
theorem isFeatureEnabled_spec (env : Env) (f v : String) :
    (env.nodeEnv = "development" → mapGet env.vars ("FEATURE_" ++ f) = some v →
       isFeatureEnabled env f = some (decide (v = "true")))
    ∧ (env.nodeEnv ≠ "development" → isFeatureEnabled env f = mapGet FEATURE_FLAGS f)
    ∧ (mapGet FEATURE_FLAGS f = none → mapGet env.vars ("FEATURE_" ++ f) = none →
       isFeatureEnabled env f = none) := by
  refine ⟨?_, ?_, ?_⟩
  · intro hdev hv
    unfold isFeatureEnabled
    rw [if_pos hdev, hv]
  · intro hdev
    unfold isFeatureEnabled
    rw [if_neg hdev]
  · intro habs hvar
    unfold isFeatureEnabled
    split_ifs with hdev
    · rw [hvar]
      exact habs
    · exact habs


/-- Witness for C3 (amended) at the concrete input `devEnv`, flag "X",
override value "true". -/
theorem isFeatureEnabled_spec_witness :
    (devEnv.nodeEnv = "development"
      ∧ mapGet devEnv.vars ("FEATURE_" ++ "X") = some "true")
    ∧ isFeatureEnabled devEnv "X" = some true := by
  have h := (isFeatureEnabled_spec devEnv "X" "true").1 rfl (by decide)
  exact ⟨⟨rfl, by decide⟩, by simpa using h⟩

/-! ### C4: validateDependencies -/

lemma depFold_eq (st : RegistryState) (cid : String) (deps : List String)
    (acc : List String) :
    deps.foldl
        (fun acc2 dep =>
          if hasSection st dep then acc2 else acc2 ++ [depErrorMsg cid dep]) acc
      = acc ++ (deps.filter (fun d => !hasSection st d)).map (depErrorMsg cid) := by
  induction deps generalizing acc with
  | nil => simp
  | cons d ds ih =>
    by_cases hd : hasSection st d
    · simp [List.foldl, List.filter, hd, ih]
    · simp [List.foldl, List.filter, hd, ih]

lemma validateDependencies_errors (env : Env) (st : RegistryState) :
    (validateDependencies env st).2
      = (getEnabledSections env st).flatMap
          (fun e =>
            (e.config.dependencies.filter (fun d => !hasSection st d)).map
              (depErrorMsg e.config.id)) := by
  unfold validateDependencies
  dsimp only
  suffices h : ∀ (l : List SectionRegistryEntry) (acc : List String),
      l.foldl
          (fun acc entry =>
            entry.config.dependencies.foldl
              (fun acc2 dep =>
                if hasSection st dep then acc2 else acc2 ++ [depErrorMsg entry.config.id dep])
              acc)
          acc
        = acc ++ l.flatMap
            (fun e =>
              (e.config.dependencies.filter (fun d => !hasSection st d)).map
                (depErrorMsg e.config.id)) by
    simpa using h (getEnabledSections env st) []
  intro l
  induction l with
  | nil => intro acc; simp
  | cons e es ih =>
    intro acc
    simp only [List.foldl, List.flatMap_cons]
    rw [depFold_eq, ih]
    simp

/-- C4: `validateDependencies()` is valid exactly when every declared
dependency of every entry of the enabled list is present in the
registry (regardless of that dependency being enabled itself), the
valid bit is true exactly when the error list is empty, and the error
list is exactly one human-readable message per missing dependency,
naming the dependent section and the missing dependency. -/
theorem validateDependencies_spec (env : Env) (st : RegistryState) :
    ((validateDependencies env st).1 = true ↔
      ∀ e ∈ getEnabledSections env st, ∀ dep ∈ e.config.dependencies,
        hasSection st dep = true)
    ∧ ((validateDependencies env st).1 = true ↔ (validateDependencies env st).2 = [])
    ∧ (validateDependencies env st).2
        = (getEnabledSections env st).flatMap
            (fun e =>
              (e.config.dependencies.filter (fun d => !hasSection st d)).map
                (depErrorMsg e.config.id)) := by
  have herr := validateDependencies_errors env st
  have hvalid : (validateDependencies env st).1 = (validateDependencies env st).2.isEmpty := by
    unfold validateDependencies
    rfl
  have hiff2 : (validateDependencies env st).1 = true ↔ (validateDependencies env st).2 = [] := by
    rw [hvalid]
    exact List.isEmpty_iff
  refine ⟨?_, hiff2, herr⟩
  rw [hiff2, herr]
  simp only [List.flatMap_eq_nil_iff, List.map_eq_nil_iff, List.filter_eq_nil_iff]
  constructor
  · intro h e he dep hdep
    have := h e he dep hdep
    simpa using this
  · intro h e he dep hdep
    have := h e he dep hdep
    simpa using this

/-! ### C7: getLoadStatus -/


lemma getLoadStatus_eq (st : RegistryState) :
    getLoadStatus st =
      [("hero", loadStateOf st "hero"),
       ("features", loadStateOf st "features"),
       ("pricing", loadStateOf st "pricing"),
       ("testimonials", loadStateOf st "testimonials"),
       ("contact", loadStateOf st "contact")] := by
  unfold getLoadStatus allSectionIds loadStateOf
  rfl

/-- C7: `getLoadStatus()` maps each of the five known identifiers to
`loaded` when it is registered, else `loading` when a load is in
flight, else `not-loaded`; the value `error` is never produced for any
identifier in any state. -/
theorem getLoadStatus_spec (st : RegistryState) (id : String) (hid : id ∈ allSectionIds) :
    mapGet (getLoadStatus st) id
      = some (if hasSection st id then LoadState.loaded
              else if (mapGet st.loadPromises id).isSome then LoadState.loading
              else LoadState.notLoaded)
    ∧ ∀ p ∈ getLoadStatus st, p.2 ≠ LoadState.error := by
  constructor
  · rw [getLoadStatus_eq]
    simp only [allSectionIds, List.mem_cons, List.not_mem_nil, or_false] at hid
    rcases hid with rfl | rfl | rfl | rfl | rfl <;> simp [mapGet, loadStateOf]
  · intro p hp
    rw [getLoadStatus_eq] at hp
    simp only [List.mem_cons, List.not_mem_nil, or_false] at hp
    rcases hp with rfl | rfl | rfl | rfl | rfl <;>
      · dsimp only [loadStateOf]
        split_ifs <;> simp

/-- Witness for C7 at the concrete input: the registry holding the
hero entry and the identifier "hero". -/
theorem getLoadStatus_spec_witness :
    "hero" ∈ allSectionIds
    ∧ (mapGet (getLoadStatus heroState) "hero"
        = some (if hasSection heroState "hero" then LoadState.loaded
                else if (mapGet heroState.loadPromises "hero").isSome then LoadState.loading
                else LoadState.notLoaded)
    ∧ ∀ p ∈ getLoadStatus heroState, p.2 ≠ LoadState.error) :=
  ⟨by decide, getLoadStatus_spec heroState "hero" (by decide)⟩

/-! ### C8: validateSectionProps and the optional marker -/


/-- C8, evaluation at the failing input: the source pushes a
missing-prop error for a `?`-marked key that is absent (its presence
loop ignores the optional marker), and it also rejects a present
string value against the tag `"string?"` (the tag is compared to
`typeof` verbatim, `?` included), so the claimed optional-key
behaviour does not hold of the code. -/
theorem validateSectionProps_optional_bug :
    validateSectionProps [] demoConfig
      = (false, ["Missing required prop: subtitle (string?)"])
    ∧ validateSectionProps [("subtitle", JSValue.str "hi")] demoConfig
      = (false, ["Prop subtitle should be string?, got string"]) := by
  constructor <;> rfl

end Kova
